import Mathlib

/-!
Verification development for the text-graph audio processor.

The embedding below is a shallow model of the C++ sources:
  * `src/App/parse_line.h`    — the `Parser` class (graph compiler),
  * `src/App/oscillators.h`   — `LetterRegistry`, `TypeTable`,
    `execute_bind_command`, `parse_token`, and the oscillator MIDI gating
    (`OscillatorBase::handleMidi`, `set_velocity`, `set_open_on_all_channels`),
  * `src/App/midi_pulse.h`    — `MidiBeatPulseProcessor` (the pulse engine),
  * `Main.cpp` (unnamed part)  — `InputProcessor::process_line` and the
    interactive/file session loop.

Modelling conventions:
  * C++ `int` / `long long` counters that are only ever incremented from 0
    are modelled as `Nat` or `Int`; `size_t` arithmetic (the parser's
    `paren_depth`) wraps modulo 2^64 as in C++; `unsigned long long`
    (`loopCount`) wraps modulo 2^64; `uint8` casts reduce modulo 256.
  * C++ `double` is modelled by `ℚ`.  Every claim below evaluates the
    double arithmetic only at inputs where IEEE double arithmetic is exact
    (e.g. 48000*60/120 = 24000), so the rational model is faithful there.
  * Fallible code (C++ `throw`, and undefined behaviour such as
    `pop_back` on an empty `std::vector` or an out-of-bounds
    `operator[]`) is modelled with `Except` / error codes.  Undefined
    behaviour is modelled as a distinguished crash error.
-/

namespace TextGraph

/-- Processor kinds of the fixed type catalogue registered in
`oscillators.h` (letter_binds part), plus the JUCE audio-output I/O node
added by the `Parser` constructor. -/
inductive ProcKind
  | sin | square | saw | triangle | noise
  | filter | delay | reverb
  | midi
  | ioOut
deriving DecidableEq, Repr

/-- Counterpart of `dynamic_cast<OscillatorBase*>` succeeding. -/
def ProcKind.isOsc : ProcKind → Bool
  | .sin | .square | .saw | .triangle | .noise => true
  | _ => false

/-- Counterpart of `dynamic_cast<EffectsBase*>` succeeding. -/
def ProcKind.isEffect : ProcKind → Bool
  | .filter | .delay | .reverb => true
  | _ => false

/-- Counterpart of `dynamic_cast<MidiBeatPulseProcessor*>` succeeding. -/
def ProcKind.isMidi : ProcKind → Bool
  | .midi => true
  | _ => false

/-- The `Value` variant `std::variant<int, double, std::string>` of
letter_binds; doubles are modelled by `ℚ`. -/
inductive Value
  | vInt (i : Int)
  | vFloat (q : ℚ)
  | vStr (s : String)
deriving DecidableEq, Repr

/-- Parameter kinds appearing in the `ctor_descriptor` schemas (`int` or
`double`; no schema has a text-typed parameter). -/
inductive VKind
  | kInt
  | kFloat
deriving DecidableEq, Repr

/-- The ordered parameter schema of each processor kind, exactly the
`ctor_descriptor` specializations: name, declared kind, default value. -/
def schema : ProcKind → List (String × VKind × Value)
  | .sin | .square | .saw | .triangle | .noise => [("note", .kInt, .vInt 66)]
  | .filter => [("cutoff", .kFloat, .vFloat 2000)]
  | .delay => [("time", .kFloat, .vFloat (1/2)), ("feedback", .kFloat, .vFloat (1/2)),
               ("wet", .kFloat, .vFloat (1/2)), ("dry", .kFloat, .vFloat (1/2))]
  | .reverb => [("size", .kFloat, .vFloat (1/2)), ("damp", .kFloat, .vFloat (2/5)),
                ("wet", .kFloat, .vFloat (1/2)), ("dry", .kFloat, .vFloat (1/2)),
                ("width", .kFloat, .vFloat (1/5))]
  | .midi => [("bpm", .kFloat, .vFloat 120), ("on", .kInt, .vInt 1), ("off", .kInt, .vInt 1)]
  | .ioOut => []

/-- Schema defaults in order (the `Desc::defaults` tuple). -/
def schemaDefaults (k : ProcKind) : List Value := (schema k).map (fun p => p.2.2)

/-- The name table built by the `TypeTable::register_type` calls at the
bottom of letter_binds. -/
def kindOfTypeName : String → Option ProcKind
  | "sin" => some .sin
  | "square" => some .square
  | "saw" => some .saw
  | "triangle" => some .triangle
  | "noise" => some .noise
  | "filter" => some .filter
  | "delay" => some .delay
  | "reverb" => some .reverb
  | "midi" => some .midi
  | _ => none

/-- Counterpart of `TypeTable::is_known`. -/
def isKnownType (s : String) : Bool := (kindOfTypeName s).isSome

/-- One `LetterRegistry` binding: chosen kind, its registered type name and
the concrete parameter vector (a snapshot sized to the schema). -/
structure Binding where
  kind : ProcKind
  typeName : String
  params : List Value
deriving DecidableEq, Repr

/-- The `LetterRegistry` bindings map (`std::unordered_map<char, Binding>`),
modelled as an association list with insert-or-assign update. -/
def Registry := List (Char × Binding)

instance : DecidableEq Registry := by unfold Registry; infer_instance

instance : Repr Registry := by unfold Registry; infer_instance

/-- Map lookup `bindings.find(letter)`. -/
def lookupBinding : Registry → Char → Option Binding
  | [], _ => none
  | (c, b) :: r, c' => if c = c' then some b else lookupBinding r c'

/-- Map update `bindings[letter] = ...` (insert or assign). -/
def bindLetter : Registry → Char → Binding → Registry
  | [], c, b => [(c, b)]
  | (c0, b0) :: r, c, b => if c0 = c then (c, b) :: r else (c0, b0) :: bindLetter r c b

/-- Counterpart of `LetterRegistry::is_bound`. -/
def isBound (reg : Registry) (c : Char) : Bool := (lookupBinding reg c).isSome

/-! ## Graph model (JUCE `AudioProcessorGraph` as used by `Parser`)

Each graph node carries the processor members that the compiler mutates
through `setMidiTriggered`, `set_velocity`, `set_open_on_all_channels`,
`setMidiInputGatingEnabled`, `set_listening_velocity`,
`set_is_listening_velocity` and `inc_connections`.  Defaults are the C++
member initializers. -/

structure NodeData where
  kind : ProcKind
  params : List Value
  /-- midi pulse: `num_connections` (C++ `int`, only ever incremented). -/
  numConnections : Nat := 0
  /-- midi pulse: `is_listening_velocity`. -/
  isListeningVelocity : Bool := false
  /-- midi pulse: `listening_velocity` (uint8). -/
  listeningVelocity : Nat := 1
  /-- midi pulse: `isMidiInputGatingActive`. -/
  midiInputGating : Bool := false
  /-- oscillator: `midiTriggered`. -/
  midiTriggered : Bool := false
  /-- oscillator: `open_on_all_channels`. -/
  openOnAllChannels : Bool := false
  /-- oscillator: `velocity` (uint8). -/
  velocity : Nat := 1
deriving DecidableEq, Repr

/-- Connection endpoint channel: an audio channel index or the reserved
JUCE `midiChannelIndex`. -/
inductive Chan
  | audio (n : Nat)
  | midiCh
deriving DecidableEq, Repr

/-- One `AudioProcessorGraph` connection. -/
structure Conn where
  src : Nat
  srcChan : Chan
  dst : Nat
  dstChan : Chan
deriving DecidableEq, Repr

/-- The `Parser` object state: the owned graph (nodes keyed by id plus
connections), the output-sink node id, and the member variables
`midi_pulsers` (a `std::vector` used as a stack) and `paren_depth`
(a `size_t`, wrapping modulo 2^64). -/
structure ParserState where
  nodes : List (Nat × NodeData)
  conns : List Conn
  audioOut : Nat
  midiPulsers : List Nat
  parenDepth : Nat
  nextId : Nat
deriving DecidableEq, Repr

/-- Modulus of `size_t` / `unsigned long long`. -/
def U64 : Nat := 2 ^ 64

/-- Model of `graph->addNode`: appends a node under a fresh id and returns the id. -/
def addNode (st : ParserState) (nd : NodeData) : ParserState × Nat :=
  ({ st with nodes := st.nodes ++ [(st.nextId, nd)], nextId := st.nextId + 1 }, st.nextId)

/-- Node lookup by id. -/
def getNode (st : ParserState) (i : Nat) : Option NodeData :=
  (st.nodes.find? (fun p => p.1 = i)).map (fun p => p.2)

/-- Replace the data of node `i` (an in-place processor mutation). -/
def setNode (st : ParserState) (i : Nat) (nd : NodeData) : ParserState :=
  { st with nodes := st.nodes.map (fun p => if p.1 = i then (i, nd) else p) }

/-- Model of `graph->addConnection`. -/
def addConn (st : ParserState) (c : Conn) : ParserState :=
  { st with conns := st.conns ++ [c] }

/-- Model of `Parser::connect`: a stereo pair of audio connections. -/
def connect (st : ParserState) (n1 n2 : Nat) : ParserState :=
  addConn (addConn st ⟨n1, .audio 0, n2, .audio 0⟩) ⟨n1, .audio 1, n2, .audio 1⟩

/-- Errors raised (or undefined behaviour reached) while compiling a
playback string.  `UnboundLetter` is the `initialize: unknown letter`
throw; `PopEmptyStack` and `IndexOutOfBounds` model the undefined
behaviour of `midi_pulsers.pop_back()` on an empty vector and of
`midi_pulsers[i]` out of range; `NullMidiDeref` models calling through a
null `dynamic_cast` result.  `UnbalancedParentheses` is the error named
by the spec; the code contains no path that raises it, and the
constructor exists here so that statements about it can be expressed. -/
inductive CompileError
  | UnboundLetter
  | PopEmptyStack
  | IndexOutOfBounds
  | NullMidiDeref
  | UnbalancedParentheses
deriving DecidableEq, Repr

instance {ε α : Type} [DecidableEq ε] [DecidableEq α] : DecidableEq (Except ε α) :=
  fun x y =>
    match x, y with
    | .ok a, .ok b =>
      if h : a = b then .isTrue (by rw [h]) else .isFalse (by simp [h])
    | .error a, .error b =>
      if h : a = b then .isTrue (by rw [h]) else .isFalse (by simp [h])
    | .ok _, .error _ => .isFalse (by simp)
    | .error _, .ok _ => .isFalse (by simp)

/-- Model of `LetterRegistry::initialize`: a fresh snapshot of the current binding
(kind and an independent copy of the parameter vector). -/
def initialize_letter (reg : Registry) (c : Char) : Except CompileError (ProcKind × List Value) :=
  match lookupBinding reg c with
  | none => .error .UnboundLetter
  | some b => .ok (b.kind, b.params)

/-- Model of `Parser::connect_midi_direct`: a midi-channel connection, then flags on
the destination depending on its dynamic type. -/
def connectMidiDirect (st : ParserState) (n1 n2 : Nat) : ParserState :=
  let st := addConn st ⟨n1, .midiCh, n2, .midiCh⟩
  match getNode st n2 with
  | some nd =>
    if nd.kind.isOsc then
      setNode st n2 { nd with midiTriggered := true, openOnAllChannels := true }
    else if nd.kind.isMidi then
      setNode st n2 { nd with midiInputGating := true, isListeningVelocity := false }
    else st
  | none => st

/-- Model of `Parser::connect_midi`: a midi-channel connection; if the destination
is an oscillator or a pulse, the source pulse's `num_connections` is
(optionally) incremented and the resulting count becomes the
destination's listening velocity / channel slot (through a `uint8` cast).
If the source is not a pulse the C++ calls through a null pointer. -/
def connectMidi (st : ParserState) (n1 n2 : Nat) (needInc : Bool) :
    Except CompileError ParserState :=
  let st := addConn st ⟨n1, .midiCh, n2, .midiCh⟩
  match getNode st n2 with
  | none => .ok st
  | some nd =>
    if nd.kind.isOsc then
      match getNode st n1 with
      | some m =>
        if m.kind.isMidi then
          let newNum := if needInc then m.numConnections + 1 else m.numConnections
          let st := setNode st n1 { m with numConnections := newNum }
          .ok (setNode st n2 { nd with midiTriggered := true,
                                       openOnAllChannels := false,
                                       velocity := newNum % 256 })
        else .error .NullMidiDeref
      | none => .error .NullMidiDeref
    else if nd.kind.isMidi then
      match getNode st n1 with
      | some m =>
        if m.kind.isMidi then
          let newNum := if needInc then m.numConnections + 1 else m.numConnections
          let st := setNode st n1 { m with numConnections := newNum }
          .ok (setNode st n2 { nd with midiInputGating := true,
                                       listeningVelocity := newNum % 256,
                                       isListeningVelocity := true })
        else .error .NullMidiDeref
      | none => .error .NullMidiDeref
    else .ok st

/-- The per-word local variables of `Parser::initialize_word`. -/
structure WordState where
  needInc : Bool := true
  orphans : List Nat := []
  effectsTail : Option Nat := none
  prevWasMidi : Bool := false
deriving DecidableEq, Repr

/-- The `if (prev_was_midi) connect_midi_direct(midi_pulsers.back(), node)`
step of the character loop (`back()` on an empty vector is undefined
behaviour). -/
def letterStepA (st : ParserState) (ws : WordState) (nid : Nat) :
    Except CompileError ParserState :=
  if ws.prevWasMidi then
    match st.midiPulsers.getLast? with
    | some b => .ok (connectMidiDirect st b nid)
    | none => .error .IndexOutOfBounds
  else .ok st

/-- The `if (paren_depth > 0) connect_midi(midi_pulsers[paren_depth-1],
node, need_to_inc)` step (an out-of-range index is undefined behaviour);
also returns the updated `need_to_inc`. -/
def letterStepB (st : ParserState) (ws : WordState) (nid : Nat) :
    Except CompileError (ParserState × Bool) :=
  if st.parenDepth > 0 then
    match st.midiPulsers.get? (st.parenDepth - 1) with
    | some pid =>
      match connectMidi st pid nid ws.needInc with
      | .error e => .error e
      | .ok st' => .ok (st', false)
    | none => .error .IndexOutOfBounds
  else .ok (st, ws.needInc)

/-- The kind dispatch at the end of the character loop: oscillators join
the orphans; effects absorb the orphans, are chained onto the previous
effect tail of the word when one exists, and become the new chain tail
(the `prev_was_midi = false` assignment runs inside the orphan loop, so
it only fires when an orphan was absorbed); pulses push onto the stack. -/
def letterDispatch (st : ParserState) (ws : WordState) (k : ProcKind) (nid : Nat) :
    ParserState × WordState :=
  if k.isOsc then
    (st, { ws with orphans := ws.orphans ++ [nid], prevWasMidi := false })
  else if k.isEffect then
    let st := ws.orphans.foldl (fun s o => connect s o nid) st
    -- if (effects_tail) connect(effects_tail, current_node): chain the
    -- previous effect of this word into the new one
    let st :=
      match ws.effectsTail with
      | some t => connect st t nid
      | none => st
    let prev := if ws.orphans.isEmpty then ws.prevWasMidi else false
    (st, { ws with orphans := [], effectsTail := some nid, prevWasMidi := prev })
  else if k.isMidi then
    ({ st with midiPulsers := st.midiPulsers ++ [nid] }, { ws with prevWasMidi := true })
  else
    (st, ws)

/-- One iteration of the character loop of `Parser::initialize_word`. -/
def processChar (reg : Registry) (acc : ParserState × WordState) (c : Char) :
    Except CompileError (ParserState × WordState) :=
  let (st, ws) := acc
  if c = '(' then
    .ok ({ st with parenDepth := (st.parenDepth + 1) % U64 },
         { ws with prevWasMidi := false, needInc := true })
  else if c = ')' then
    -- `paren_depth--` on a `size_t` wraps at zero; `pop_back` on an empty
    -- vector is undefined behaviour.
    match st.midiPulsers with
    | [] => .error .PopEmptyStack
    | _ :: _ =>
      .ok ({ st with parenDepth := if st.parenDepth = 0 then U64 - 1 else st.parenDepth - 1,
                     midiPulsers := st.midiPulsers.dropLast },
           { ws with prevWasMidi := false })
  else
    match initialize_letter reg c with
    | .error e => .error e
    | .ok (k, ps) =>
      let (st, nid) := addNode st { kind := k, params := ps }
      match letterStepA st ws nid with
      | .error e => .error e
      | .ok st =>
        match letterStepB st ws nid with
        | .error e => .error e
        | .ok (st, needInc) =>
          .ok (letterDispatch st { ws with needInc := needInc } k nid)

/-- The character loop of `Parser::initialize_word`. -/
def processWordChars (reg : Registry) (acc : ParserState × WordState) :
    List Char → Except CompileError (ParserState × WordState)
  | [] => .ok acc
  | c :: cs =>
    match processChar reg acc c with
    | .error e => .error e
    | .ok acc' => processWordChars reg acc' cs

/-- The end-of-word wiring of `Parser::initialize_word`: the effect tail
(if any) is connected to the sink, and every remaining orphan is connected
to the sink as well (the source has no `else` between the two). -/
def finalize_word (st : ParserState) (ws : WordState) : ParserState :=
  let st :=
    match ws.effectsTail with
    | some t => connect st t st.audioOut
    | none => st
  ws.orphans.foldl (fun s o => connect s o s.audioOut) st

/-- Model of `Parser::initialize_word`. -/
def initialize_word (reg : Registry) (st : ParserState) (w : List Char) :
    Except CompileError ParserState :=
  match processWordChars reg (st, {}) w with
  | .error e => .error e
  | .ok (st', ws) => .ok (finalize_word st' ws)

/-- Whitespace tokenizer modelling `std::istringstream` extraction. -/
def tokenizeAux : List Char → List Char → List String
  | [], acc => if acc.isEmpty then [] else [String.mk acc.reverse]
  | c :: cs, acc =>
    if c.isWhitespace then
      if acc.isEmpty then tokenizeAux cs [] else String.mk acc.reverse :: tokenizeAux cs []
    else tokenizeAux cs (c :: acc)

/-- Split a line into whitespace-separated words. -/
def tokenize (s : String) : List String := tokenizeAux s.toList []

/-- The word loop of `Parser::parse_and_initialize`. -/
def initWords (reg : Registry) (st : ParserState) :
    List String → Except CompileError ParserState
  | [] => .ok st
  | w :: ws =>
    match initialize_word reg st w.toList with
    | .error e => .error e
    | .ok st' => initWords reg st' ws

/-- Model of `Parser::parse_and_initialize`: split the playback string into words
and compile each in turn (pulse stack and depth persist across words). -/
def parse_and_initialize_line (reg : Registry) (st : ParserState) (line : String) :
    Except CompileError ParserState :=
  initWords reg st (tokenize line)

/-- The freshly constructed `Parser`: an empty graph holding only the
audio-output node (id 1). -/
def initParser : ParserState :=
  { nodes := [(1, { kind := .ioOut, params := [] })], conns := [], audioOut := 1,
    midiPulsers := [], parenDepth := 0, nextId := 2 }

/-- Compile one playback string on a fresh parser. -/
def compileLine (reg : Registry) (line : String) : Except CompileError ParserState :=
  parse_and_initialize_line reg initParser line

/-! ### Observation helpers over a compile result -/

/-- Whether compilation succeeded. -/
def compiledOk (r : Except CompileError ParserState) : Bool :=
  match r with
  | .ok _ => true
  | .error _ => false

/-- The stored `velocity` member (the channel slot) of node `i`. -/
def nodeVel (r : Except CompileError ParserState) (i : Nat) : Option Nat :=
  match r with
  | .ok st => (getNode st i).map (fun nd => nd.velocity)
  | .error _ => none

/-- The `num_connections` counter of node `i` (its number of claimed slots). -/
def nodeNum (r : Except CompileError ParserState) (i : Nat) : Option Nat :=
  match r with
  | .ok st => (getNode st i).map (fun nd => nd.numConnections)
  | .error _ => none

/-- The processor kind of node `i`. -/
def nodeKind (r : Except CompileError ParserState) (i : Nat) : Option ProcKind :=
  match r with
  | .ok st => (getNode st i).map (fun nd => nd.kind)
  | .error _ => none

/-- Whether a midi-channel (control) connection `i → j` exists. -/
def hasMidiConn (r : Except CompileError ParserState) (i j : Nat) : Bool :=
  match r with
  | .ok st => st.conns.any (fun c => c = ⟨i, .midiCh, j, .midiCh⟩)
  | .error _ => false

/-- Whether an audio connection `i → j` (left channel of the stereo pair)
exists. -/
def hasAudioConn (r : Except CompileError ParserState) (i j : Nat) : Bool :=
  match r with
  | .ok st => st.conns.any (fun c => c = ⟨i, .audio 0, j, .audio 0⟩)
  | .error _ => false

/-- The parser's `paren_depth` after a successful compile. -/
def depthOf (r : Except CompileError ParserState) : Option Nat :=
  match r with
  | .ok st => some st.parenDepth
  | .error _ => none

/-- Gate response of `OscillatorBase::handleMidi`: a midi-triggered
oscillator reacts to an event exactly when it is open on all channels or
the event velocity matches its assigned channel slot. -/
def oscRespondsTo (nd : NodeData) (v : Nat) : Bool :=
  nd.midiTriggered && (nd.openOnAllChannels || nd.velocity == v)

/-- Gate response of node `i` of a compile result to event velocity `v`. -/
def respondsAt (r : Except CompileError ParserState) (i : Nat) (v : Nat) : Bool :=
  match r with
  | .ok st =>
    match getNode st i with
    | some nd => oscRespondsTo nd v
    | none => false
  | .error _ => false

/-! ### Concrete registries used by the claims -/

/-- Default `sin` binding. -/
def sinBinding : Binding := ⟨.sin, "sin", [.vInt 66]⟩

/-- Default `midi` binding (bpm=120, on=1, off=1). -/
def midiBinding : Binding := ⟨.midi, "midi", [.vFloat 120, .vInt 1, .vInt 1]⟩

/-- Default `filter` binding. -/
def filterBinding : Binding := ⟨.filter, "filter", [.vFloat 2000]⟩

/-- Registry for the pulse-notation claims: `x ↦ midi`, `a`,`b ↦ sin`. -/
def regX : Registry := [('x', midiBinding), ('a', sinBinding), ('b', sinBinding)]

/-- Registry for the effect-chain claims: `a`,`b ↦ sin`, `c ↦ filter`. -/
def regACB : Registry := [('a', sinBinding), ('c', filterBinding), ('b', sinBinding)]

/-! ## Pulse engine (`MidiBeatPulseProcessor`, midi_pulse.h)

The render loop is modelled per sample: within a block the C++ processes
sample indices `0..blockSize-1` against `globalSampleCount +
currentSampleInBlock` and adds `blockSize` to `globalSampleCount` at the
end, so a sequence of blocks is observationally the flat sequence of its
samples; event times below are absolute sample indices
(`globalSampleCount + currentSampleInBlock`).

The incoming-MIDI scan of one sample can leave `externalGatingNoteActive`
unchanged (no message), or set it to any boolean (note on/off, all-notes
-off, velocity filtering); one sample's incoming MIDI is therefore
modelled as an `Option Bool`.  The events returned are only the ones the
processor generates itself (the trailing pass-through of leftover
incoming messages is not part of the generated stream). -/

/-- The two `CycleState` values. -/
inductive CycleState
  | awaitingNoteOn
  | noteIsOn
deriving DecidableEq, Repr

/-- The `MidiBeatPulseProcessor` member state.  `loopCount` is an
`unsigned long long` (wraps modulo 2^64); `velocity` and
`listeningVelocity` are `uint8` (values in `[0,256)`); sample counters
are `long long`, modelled as `Int`. -/
structure PState where
  bpm : ℚ
  beatsOn : Int
  beatsOff : Int
  sampleRate : ℚ := 44100
  samplesPerBeat : Int := 0
  onDur : Int := 0
  offDur : Int := 0
  count : Int := 0
  next : Int := 0
  cycle : CycleState := .awaitingNoteOn
  noteOn : Bool := false
  loopCount : Nat := 0
  isInitialCycle : Bool := true
  extGate : Bool := false
  gatingActive : Bool := false
  numConnections : Int := 0
  velocity : Nat := 1
  listeningVelocity : Nat := 1
  isListeningVelocity : Bool := false
deriving DecidableEq, Repr

/-- The constructor `MidiBeatPulseProcessor(bpm, on, off)`: negative beat
counts are clamped to zero. -/
def mkPulse (bpm : ℚ) (onIn offIn : Int) : PState :=
  { bpm := bpm,
    beatsOn := if onIn > 0 then onIn else 0,
    beatsOff := if offIn > 0 then offIn else 0 }

/-- Model of `inc_connections`. -/
def pInc (s : PState) : PState := { s with numConnections := s.numConnections + 1 }

/-- Model of `inc_connections` iterated (one call per attached child subtree). -/
def pIncN (s : PState) : Nat → PState
  | 0 => s
  | n + 1 => pIncN (pInc s) n

/-- Model of `setMidiInputGatingEnabled`. -/
def pSetGating (s : PState) (b : Bool) : PState := { s with gatingActive := b }

/-- Model of `set_is_listening_velocity`. -/
def pSetIsListening (s : PState) (b : Bool) : PState := { s with isListeningVelocity := b }

/-- Model of `set_listening_velocity` (an `int` cast to `uint8`). -/
def pSetListeningVel (s : PState) (v : Int) : PState :=
  { s with listeningVelocity := (v % 256).toNat }

/-- Model of `prepareToPlay`: derives `samplesPerBeat` by a C++ cast of
`sampleRate*60/bpm` to `long long` (truncation; the operands are positive
when the guard holds, so truncation equals the floor) and resets all
timing state.  The gating configuration flags are not reset. -/
def prepareToPlay (s : PState) (sr : ℚ) : PState :=
  let spb : Int := if s.bpm > 0 ∧ sr > 0 then (sr * 60 / s.bpm).floor else 0
  { s with sampleRate := sr,
           samplesPerBeat := spb,
           onDur := s.beatsOn * spb,
           offDur := s.beatsOff * spb,
           count := 0,
           cycle := .awaitingNoteOn,
           next := 0,
           noteOn := false,
           loopCount := 0,
           isInitialCycle := true,
           extGate := false }

/-- One generated MIDI event: absolute sample time, on/off, and the
velocity byte it carries. -/
structure Ev where
  time : Int
  isOn : Bool
  vel : Nat
deriving DecidableEq, Repr

/-- The velocity computation of the `AWAITING_NOTE_ON` branch:
`loopCount % (unsigned long long)num_connections + 1` when
`num_connections > 0`, else `1`, cast to `uint8`. -/
def computeVelocity (num : Int) (lc : Nat) : Nat :=
  (if num > 0 then lc % num.toNat + 1 else 1) % 256

/-- One iteration of the state-change `while` loop of `processBlock`. -/
def boundaryStep (s : PState) : PState × List Ev :=
  match s.cycle with
  | .awaitingNoteOn =>
    let lc := if s.isInitialCycle then s.loopCount else (s.loopCount + 1) % U64
    let v := computeVelocity s.numConnections lc
    let permitted : Bool := !s.gatingActive || s.extGate
    if s.beatsOn > 0 ∧ permitted = true ∧ s.noteOn = false then
      ({ s with loopCount := lc, isInitialCycle := false, velocity := v,
                noteOn := true, cycle := .noteIsOn, next := s.next + s.onDur },
       [⟨s.count, true, v⟩])
    else
      ({ s with loopCount := lc, isInitialCycle := false, velocity := v,
                cycle := .noteIsOn, next := s.next + s.onDur }, [])
  | .noteIsOn =>
    if s.noteOn then
      ({ s with noteOn := false, cycle := .awaitingNoteOn, next := s.next + s.offDur },
       [⟨s.count, false, s.velocity⟩])
    else
      ({ s with cycle := .awaitingNoteOn, next := s.next + s.offDur }, [])

/-- The incoming-MIDI scan of one sample: when gating is active the
messages leave `externalGatingNoteActive` at some boolean (or unchanged
when no message arrives); when gating is inactive the messages are
ignored. -/
def gateUpdate (s : PState) (g : Option Bool) : PState :=
  { s with extGate := if s.gatingActive then g.getD s.extGate else s.extGate }

/-- The forced-off check: gating active, own note on, parent gate closed
emits an immediate Off without touching the cycle counters. -/
def forcedOff (s : PState) : PState × List Ev :=
  if s.gatingActive ∧ s.noteOn = true ∧ s.extGate = false then
    ({ s with noteOn := false }, [⟨s.count, false, s.velocity⟩])
  else (s, [])

/-- The state-change `while` loop of one sample, unrolled twice.  The
loop runs at most twice per sample: each iteration adds `onDur` or
`offDur` (alternating) to `next`, and the loop is only reachable when
the two durations are not both zero, so after at most two iterations
`next` strictly exceeds the (fixed) sample position;
`boundaryLoop_exits` below proves the residual loop condition false, so
this bounded unrolling is exact for every prepared configuration. -/
def boundaryLoop (s : PState) : PState × List Ev :=
  let r1 := if s.count = s.next then boundaryStep s else (s, [])
  let r2 := if r1.1.count = r1.1.next then boundaryStep r1.1 else (r1.1, [])
  (r2.1, r1.2 ++ r2.2)

/-- Processing of one sample of `processBlock`: incoming-MIDI gate
update, the forced-off check, then the state-change loop; the sample
counter advances by one. -/
def sampleStep (s : PState) (g : Option Bool) : PState × List Ev :=
  if s.onDur = 0 ∧ s.offDur = 0 then
    -- the early return: no events, no gate update, time still advances
    ({ s with count := s.count + 1 }, [])
  else
    let s1 := gateUpdate s g
    let rF := forcedOff s1
    let rB := boundaryLoop rF.1
    ({ rB.1 with count := rB.1.count + 1 }, rF.2 ++ rB.2)

/-- Run the pulse over a flat list of per-sample gate inputs. -/
def runSamples : PState → List (Option Bool) → PState × List Ev
  | s, [] => (s, [])
  | s, g :: gs =>
    let r := sampleStep s g
    let rest := runSamples r.1 gs
    (rest.1, r.2 ++ rest.2)

/-- Run the pulse over a sequence of processed blocks (each block is its
list of per-sample gate inputs). -/
def runBlocks : PState → List (List (Option Bool)) → PState × List Ev
  | s, [] => (s, [])
  | s, b :: bs =>
    let r := runSamples s b
    let rest := runBlocks r.1 bs
    (rest.1, r.2 ++ rest.2)

/-- Alternation checker: `okSeqB on evs` holds when, starting from a
generated note that is on iff `on`, the events toggle strictly (an On
only while off, an Off only while on). -/
def okSeqB : Bool → List Ev → Bool
  | _, [] => true
  | b, e :: r => (e.isOn == !b) && okSeqB e.isOn r

/-- The note state after a run of events: the kind of the last event, or
the starting state when no event occurred. -/
def endBool : Bool → List Ev → Bool
  | b, [] => b
  | _, e :: r => endBool e.isOn r

/-- The pulse of claim C7(b): `midi` with bpm=120, on=1, off=1 prepared at
48 kHz (samplesPerBeat = 24000). -/
def pulse47 : PState := prepareToPlay (mkPulse 120 1 1) 48000

/-- Closed form of the `pulse47` state after `n` samples: the engine is
inside the on-phase (note on) during `[2k·24000, (2k+1)·24000)` and the
off-phase during `[(2k+1)·24000, (2k+2)·24000)`. -/
def stateAt (n : Nat) : PState :=
  { bpm := 120, beatsOn := 1, beatsOff := 1, sampleRate := 48000,
    samplesPerBeat := 24000, onDur := 24000, offDur := 24000,
    count := (n : Int),
    next := ((if n = 0 then 0 else 24000 * ((n - 1) / 24000 + 1) : Nat) : Int),
    cycle := if n ≠ 0 ∧ ((n - 1) / 24000) % 2 = 0 then .noteIsOn else .awaitingNoteOn,
    noteOn := decide (n ≠ 0 ∧ ((n - 1) / 24000) % 2 = 0),
    loopCount := (if n = 0 then 0 else (n - 1) / 48000) % U64,
    isInitialCycle := n = 0,
    extGate := false, gatingActive := false, numConnections := 0,
    velocity := 1, listeningVelocity := 1, isListeningVelocity := false }

/-- The events `pulse47` generates at sample `n`: one event at each
multiple of 24000, alternating On/Off, velocity byte 1. -/
def emitAt (n : Nat) : List Ev :=
  if n % 24000 = 0 then [⟨(n : Int), decide ((n / 24000) % 2 = 0), 1⟩] else []

/-- The expected `pulse47` trace over the first `len` samples starting at
sample `n`. -/
def traceFrom (n len : Nat) : List Ev := ((List.range' n len).map emitAt).flatten

/-! ## Command handling and session loop
(`execute_bind_command`, `parse_token` of letter_binds; `InputProcessor`
and the session loops of Main.cpp) -/

/-- Errors thrown by the command path (all as C++ exceptions, none of
which any caller catches).  `TypeMismatch` covers both the
`std::invalid_argument` of a failed `stoi`/`stod` conversion and the
`type mismatch in value_cast` throw (the latter is unreachable for the
registered schemas, whose targets are only `int` and `double`). -/
inductive CmdError
  | UnknownCommand
  | IncompleteCommand
  | KeyWithoutValue
  | LetterNotBound
  | UnknownParameter
  | TypeMismatch
  | UnknownType
deriving DecidableEq, Repr

/-- Truncation toward zero of a rational (the C++ `static_cast<int>` on a
`double`). -/
def ratTrunc (q : ℚ) : Int := if q < 0 then q.ceil else q.floor

/-- Digit-string value. -/
def digitsVal (ds : List Char) : Int :=
  ds.foldl (fun a c => a * 10 + ((c.toNat : Int) - 48)) 0

/-- Integer prefix parse modelling `std::stoi`: skip whitespace, optional
sign, then a nonempty digit run (trailing characters are ignored); `none`
models the `std::invalid_argument` throw. -/
def stoiLead (s : String) : Option Int :=
  let cs := s.toList.dropWhile (fun c => c.isWhitespace)
  let (sign, cs2) : Int × List Char :=
    match cs with
    | '-' :: r => (-1, r)
    | '+' :: r => (1, r)
    | _ => (1, cs)
  let ds := cs2.takeWhile (fun c => c.isDigit)
  if ds.isEmpty then none else some (sign * digitsVal ds)

/-- Decimal prefix parse modelling `std::stod` on the forms the program
feeds it: skip whitespace, optional sign, digits with an optional
fractional part (at least one digit overall; trailing characters
ignored).  Exponent and hex forms of `strtod` are not modelled; no claim
exercises them. -/
def stodLead (s : String) : Option ℚ :=
  let cs := s.toList.dropWhile (fun c => c.isWhitespace)
  let (sign, cs2) : ℚ × List Char :=
    match cs with
    | '-' :: r => (-1, r)
    | '+' :: r => (1, r)
    | _ => (1, cs)
  let ip := cs2.takeWhile (fun c => c.isDigit)
  let rest := cs2.drop ip.length
  let fp : List Char :=
    match rest with
    | '.' :: r => r.takeWhile (fun c => c.isDigit)
    | _ => []
  if ip.isEmpty ∧ fp.isEmpty then none
  else some (sign * ((digitsVal ip : ℚ) + (digitsVal fp : ℚ) / (10 : ℚ) ^ fp.length))

/-- Model of `lreg_detail::value_cast` to the declared parameter kind: identity,
arithmetic widening/narrowing, or `stoi`/`stod` on text. -/
def valueCast (k : VKind) (v : Value) : Except CmdError Value :=
  match k, v with
  | .kInt, .vInt i => .ok (.vInt i)
  | .kInt, .vFloat q => .ok (.vInt (ratTrunc q))
  | .kInt, .vStr s =>
    match stoiLead s with
    | some i => .ok (.vInt i)
    | none => .error .TypeMismatch
  | .kFloat, .vInt i => .ok (.vFloat (i : ℚ))
  | .kFloat, .vFloat q => .ok (.vFloat q)
  | .kFloat, .vStr s =>
    match stodLead s with
    | some q => .ok (.vFloat q)
    | none => .error .TypeMismatch

/-- Model of `lreg_detail::assign_tuple`: overwrite the leading parameters with the
given values, each cast to the declared kind. -/
def assignTuple : List (String × VKind × Value) → List Value → List Value →
    Except CmdError (List Value)
  | _, ds, [] => .ok ds
  | [], ds, _ => .ok ds
  | (_, k, _) :: st, _ :: ds, v :: vs =>
    match valueCast k v with
    | .error e => .error e
    | .ok v' =>
      match assignTuple st ds vs with
      | .error e => .error e
      | .ok r => .ok (v' :: r)
  | _ :: _, [], _ :: _ => .ok []

/-- Model of `TypeTable::bind`: resolve the type name, build the parameter tuple
from the schema defaults overwritten by `vals`, and insert-or-assign the
letter's binding. -/
def tableBind (reg : Registry) (c : Char) (typeName : String) (vals : List Value) :
    Except CmdError Registry :=
  match kindOfTypeName typeName with
  | none => .error .UnknownType
  | some k =>
    match assignTuple (schema k) (schemaDefaults k) vals with
    | .error e => .error e
    | .ok ps => .ok (bindLetter reg c ⟨k, typeName, ps⟩)

/-- Index of a parameter name in a schema. -/
def findParamIdx (sch : List (String × VKind × Value)) (key : String) : Option Nat :=
  match sch with
  | [] => none
  | (n, _, _) :: r =>
    if n = key then some 0 else (findParamIdx r key).map (fun i => i + 1)

/-- Model of `Binding::set_param`: locate the parameter by name (throwing `unknown
parameter name` when absent), cast the value to its declared kind, and
overwrite that slot. -/
def bindingSetParam (b : Binding) (key : String) (v : Value) : Except CmdError Binding :=
  match findParamIdx (schema b.kind) key with
  | none => .error .UnknownParameter
  | some i =>
    match (schema b.kind).get? i with
    | none => .error .UnknownParameter
    | some (_, k, _) =>
      match valueCast k v with
      | .error e => .error e
      | .ok v' => .ok { b with params := b.params.set i v' }

/-- Model of `LetterRegistry::set_param`. -/
def regSetParam (reg : Registry) (c : Char) (key : String) (v : Value) :
    Except CmdError Registry :=
  match lookupBinding reg c with
  | none => .error .LetterNotBound
  | some b =>
    match bindingSetParam b key v with
    | .error e => .error e
    | .ok b' => .ok (bindLetter reg c b')

/-- Model of `parse_token`: tokens starting with a digit or sign parse as numbers
(`stod` when a `.`/`e`/`E` occurs in the token, `stoi` otherwise); other
tokens stay text. -/
def parse_token (tok : String) : Except CmdError Value :=
  let numeric := !tok.isEmpty &&
    ((tok.toList.head?.elim false (fun c => c.isDigit)) || tok.startsWith "-" || tok.startsWith "+")
  if numeric then
    if tok.toList.any (fun c => c = '.' ∨ c = 'e' ∨ c = 'E') then
      match stodLead tok with
      | some q => .ok (.vFloat q)
      | none => .error .TypeMismatch
    else
      match stoiLead tok with
      | some i => .ok (.vInt i)
      | none => .error .TypeMismatch
  else .ok (.vStr tok)

/-- The `while (ss >> k >> v)` collection loop: pairs are collected until
a key or its value fails to extract (a trailing key without a value is
silently dropped); each value goes through `parse_token` as it is
collected. -/
def collectPairs : List String → Except CmdError (List (String × Value))
  | [] => .ok []
  | [_] => .ok []
  | k :: v :: ts =>
    match parse_token v with
    | .error e => .error e
    | .ok pv =>
      match collectPairs ts with
      | .error e => .error e
      | .ok r => .ok ((k, pv) :: r)

/-- The final parameter-application loop of `execute_bind_command`
(`for (auto& [k,v] : kv) reg.set_param(...)`).  The registry is mutated
in place, so a failure leaves all previously applied parameters in
effect; the result is the registry as mutated so far plus the escaping
exception, if any. -/
def applyParams (reg : Registry) (c : Char) :
    List (String × Value) → Registry × Option CmdError
  | [] => (reg, none)
  | (k, v) :: r =>
    match regSetParam reg c k v with
    | .error e => (reg, some e)
    | .ok reg' => applyParams reg' c r

/-- Model of `execute_bind_command` on an already-lowercased line.  Stream
extraction is modelled by whitespace tokenization; `ss >> letter` takes
the first character of the next token and leaves its remainder in the
stream.  In the rebinding path the letter is bound to the new type with
schema defaults BEFORE any override is applied. -/
def executeBind (reg : Registry) (line : String) : Registry × Option CmdError :=
  match tokenize line with
  | [] => (reg, some .UnknownCommand)
  | cmd :: rest =>
    if cmd ≠ "set" then (reg, some .UnknownCommand)
    else
      match rest with
      | [] => (reg, some .IncompleteCommand)
      | ltok :: ts =>
        match ltok.toList with
        | [] => (reg, some .IncompleteCommand)
        | lc :: lrest =>
          let ts' := if lrest.isEmpty then ts else String.mk lrest :: ts
          match ts' with
          | [] => (reg, some .IncompleteCommand)
          | firstTok :: ts2 =>
            if isKnownType firstTok || !isBound reg lc then
              match tableBind reg lc firstTok [] with
              | .error e => (reg, some e)
              | .ok reg1 =>
                match collectPairs ts2 with
                | .error e => (reg1, some e)
                | .ok kv => applyParams reg1 lc kv
            else
              if !isBound reg lc then (reg, some .LetterNotBound)
              else
                match ts2 with
                | [] => (reg, some .KeyWithoutValue)
                | vTok :: ts3 =>
                  match parse_token vTok with
                  | .error e => (reg, some e)
                  | .ok v =>
                    match collectPairs ts3 with
                    | .error e => (reg, some e)
                    | .ok kv => applyParams reg lc ((firstTok, v) :: kv)

/-- The `std::transform(..., ::tolower)` of `process_line` (ASCII). -/
def lowerStr (s : String) : String := String.mk (s.toList.map Char.toLower)

/-- Model of `std::string::starts_with`. -/
def startsWithStr (s pre : String) : Bool := pre.toList.isPrefixOf s.toList

/-- Session-level errors: a command exception or a compile exception, both
uncaught in the C++. -/
inductive SessionError
  | cmd (e : CmdError)
  | compile (e : CompileError)
deriving DecidableEq, Repr

/-- The `InputProcessor` state: the registry, the saved playback string
and the `Parser`. -/
structure SessionState where
  reg : Registry
  saved : String
  parser : ParserState
deriving DecidableEq, Repr

/-- Model of `Parser::clear_graph`: drop all nodes and connections and add a fresh
audio-output node; `midi_pulsers` and `paren_depth` persist. -/
def clear_graph (p : ParserState) : ParserState :=
  { p with nodes := [(p.nextId, { kind := .ioOut, params := [] })], conns := [],
           audioOut := p.nextId, nextId := p.nextId + 1 }

/-- First quoted substring of a line (the `"([^"]*)"` regex capture). -/
def firstQuoted (s : String) : Option String :=
  match s.toList.dropWhile (fun c => c ≠ '"') with
  | [] => none
  | _ :: rest =>
    if rest.any (fun c => c = '"') then some (String.mk (rest.takeWhile (fun c => c ≠ '"')))
    else none

/-- Model of `InputProcessor::process_line`: branch on the (case-sensitive) command
prefixes, lowercase the line, then dispatch.  An error is an uncaught C++
exception escaping `process_line`; mutations made before the throw
persist.  (On a PLAY compile error the C++ graph keeps the partially
built nodes; the model discards them — immaterial, since the exception
ends the session.) -/
def process_line (st : SessionState) (line : String) : SessionState × Option SessionError :=
  let setCmd := startsWithStr line "SET"
  let playCmd := startsWithStr line "PLAY"
  let pauseCmd := startsWithStr line "PAUSE"
  let printCmd := startsWithStr line "PRINT"
  let lower := lowerStr line
  if setCmd then
    let (reg', e) := executeBind st.reg lower
    ({ st with reg := reg' }, e.map .cmd)
  else if playCmd then
    let p0 := clear_graph st.parser
    match parse_and_initialize_line st.reg p0 st.saved with
    | .ok p1 => ({ st with parser := p1 }, none)
    | .error e => ({ st with parser := p0 }, some (.compile e))
  else if pauseCmd then
    ({ st with parser := clear_graph st.parser }, none)
  else if printCmd then
    (st, none)
  else
    match firstQuoted lower with
    | some s => ({ st with saved := s }, none)
    | none => (st, none)

/-- The interactive/file session loop: lines are processed in order; EXIT
stops cleanly; an uncaught exception from `process_line` terminates the
loop, leaving the remaining lines unprocessed.  Returns the final state,
the escaping error (if any) and the unprocessed remainder. -/
def runSession (st : SessionState) :
    List String → SessionState × Option SessionError × List String
  | [] => (st, none, [])
  | l :: ls =>
    if l = "EXIT" then (st, none, ls)
    else
      match process_line st l with
      | (st', some e) => (st', some e, ls)
      | (st', none) => runSession st' ls

/-- A session start state over a registry, with an empty saved string and
a fresh parser. -/
def mkSession (reg : Registry) : SessionState := ⟨reg, "", initParser⟩

/-- Registry for the session claims: `a` and `b` bound to `sin`. -/
def regAB : Registry := [('a', sinBinding), ('b', sinBinding)]

/-- Registry for the atomicity claim: `a` bound to `sin` with note 10. -/
def regSin10 : Registry := [('a', ⟨.sin, "sin", [.vInt 10]⟩)]

/-- The pulse state used by the C6 counterexample: a pulse with 300
claimed slots about to leave `AWAITING_NOTE_ON` for its 300th cycle. -/
def c6State : PState :=
  { bpm := 120, beatsOn := 1, beatsOff := 1, sampleRate := 48000,
    samplesPerBeat := 24000, onDur := 24000, offDur := 24000,
    count := 0, next := 0, cycle := .awaitingNoteOn, noteOn := false,
    loopCount := 298, isInitialCycle := false, extGate := false,
    gatingActive := false, numConnections := 300, velocity := 1,
    listeningVelocity := 1, isListeningVelocity := false }

end TextGraph

/-! # Theorems settling the claims -/

namespace TextGraph

/-! ## C1: `"x(a) x(b)"` -/

/-- C1 counterexample.  Compiling `"x(a) x(b)"` does NOT make `a` and `b`
control children of one `x` with different slots: each occurrence of `x`
instantiates a separate pulse node (ids 2 and 4), `a` (id 3) is the
ChannelFiltered child of the first and `b` (id 5) of the second, and
their slots are EQUAL (both 1), not different; there is no control
connection from the first `x` to `b`. -/
theorem c1_slots_counterexample :
    compiledOk (compileLine regX "x(a) x(b)") = true ∧
    nodeKind (compileLine regX "x(a) x(b)") 2 = some .midi ∧
    nodeKind (compileLine regX "x(a) x(b)") 4 = some .midi ∧
    hasMidiConn (compileLine regX "x(a) x(b)") 2 3 = true ∧
    hasMidiConn (compileLine regX "x(a) x(b)") 4 5 = true ∧
    hasMidiConn (compileLine regX "x(a) x(b)") 2 5 = false ∧
    hasMidiConn (compileLine regX "x(a) x(b)") 4 3 = false ∧
    nodeVel (compileLine regX "x(a) x(b)") 3 = nodeVel (compileLine regX "x(a) x(b)") 5 ∧
    nodeVel (compileLine regX "x(a) x(b)") 3 = some 1 := by
  decide

/-- C1 amended.  Compiling `"x(a) x(b)"` instantiates a separate `midi`
pulse node per occurrence of `x`: node 3 (`a`) is the ChannelFiltered
control child of node 2 (the first `x`) and node 5 (`b`) of node 4 (the
second `x`), both with slot 1; each pulse has exactly one claimed slot,
so its velocity computation yields slot 1 on every cycle — each pulse
sounds its own child on every cycle instead of alternating. -/
theorem c1_separate_pulses_amended :
    (compiledOk (compileLine regX "x(a) x(b)") = true ∧
     nodeKind (compileLine regX "x(a) x(b)") 2 = some .midi ∧
     nodeKind (compileLine regX "x(a) x(b)") 4 = some .midi ∧
     hasMidiConn (compileLine regX "x(a) x(b)") 2 3 = true ∧
     hasMidiConn (compileLine regX "x(a) x(b)") 4 5 = true ∧
     hasMidiConn (compileLine regX "x(a) x(b)") 2 5 = false ∧
     hasMidiConn (compileLine regX "x(a) x(b)") 4 3 = false ∧
     nodeVel (compileLine regX "x(a) x(b)") 3 = some 1 ∧
     nodeVel (compileLine regX "x(a) x(b)") 5 = some 1 ∧
     nodeNum (compileLine regX "x(a) x(b)") 2 = some 1 ∧
     nodeNum (compileLine regX "x(a) x(b)") 4 = some 1) ∧
    ∀ lc : Nat, computeVelocity 1 lc = 1 := by
  constructor
  · decide
  · intro lc
    simp [computeVelocity]
    omega

/-! ## C2: `"x(a b)"` vs `"x(ab)"` -/

/-- C2 counterexample.  In `"x(a b)"` the space is a word boundary and a
new word always starts a fresh slot claim, so `a` (node 3) and `b`
(node 4) do NOT share one slot: both are control children of the same
`x` (node 2), but `a` has slot 1 and `b` has slot 2, and the pulse holds
two claimed slots — the two alternate rather than firing together. -/
theorem c2_shared_slot_counterexample :
    compiledOk (compileLine regX "x(a b)") = true ∧
    hasMidiConn (compileLine regX "x(a b)") 2 3 = true ∧
    hasMidiConn (compileLine regX "x(a b)") 2 4 = true ∧
    nodeVel (compileLine regX "x(a b)") 3 = some 1 ∧
    nodeVel (compileLine regX "x(a b)") 4 = some 2 ∧
    nodeNum (compileLine regX "x(a b)") 2 = some 2 := by
  decide

/-- C2 amended.  The claimed shared-slot grouping holds for the one-word
string `"x(ab)"`: `a` (node 3) and `b` (node 4) are both ChannelFiltered
control children of the single `x` (node 2) with the same slot 1, the
pulse has one claimed slot (so its velocity is 1 on every cycle), and the
two oscillators respond to exactly the same event velocities — they fire
together whenever the slot is active.  In `"x(a b)"` the word boundary
instead forces a fresh claim: `a` gets slot 1 and `b` slot 2. -/
theorem c2_word_grouping_amended :
    (compiledOk (compileLine regX "x(ab)") = true ∧
     hasMidiConn (compileLine regX "x(ab)") 2 3 = true ∧
     hasMidiConn (compileLine regX "x(ab)") 2 4 = true ∧
     nodeVel (compileLine regX "x(ab)") 3 = some 1 ∧
     nodeVel (compileLine regX "x(ab)") 4 = some 1 ∧
     nodeNum (compileLine regX "x(ab)") 2 = some 1 ∧
     nodeVel (compileLine regX "x(a b)") 3 = some 1 ∧
     nodeVel (compileLine regX "x(a b)") 4 = some 2) ∧
    (∀ lc : Nat, computeVelocity 1 lc = 1) ∧
    ∀ v : Nat, respondsAt (compileLine regX "x(ab)") 3 v =
               respondsAt (compileLine regX "x(ab)") 4 v := by
  refine ⟨by decide, fun lc => by simp [computeVelocity]; omega, fun v => ?_⟩
  have h : (match compileLine regX "x(ab)" with
            | .ok st => getNode st 3
            | .error _ => none) =
           (match compileLine regX "x(ab)" with
            | .ok st => getNode st 4
            | .error _ => none) := by decide
  simp only [respondsAt]
  cases hc : compileLine regX "x(ab)" with
  | error e => rfl
  | ok st =>
    rw [hc] at h
    have h2 : getNode st 3 = getNode st 4 := h
    show (match getNode st 3 with
          | some nd => oscRespondsTo nd v
          | none => false) =
         (match getNode st 4 with
          | some nd => oscRespondsTo nd v
          | none => false)
    rw [h2]

/-! ## C4: end-of-word sink wiring -/

/-- C4 counterexample.  Compiling `"ca"` (effect `c` = node 2, then
oscillator `a` = node 3 left as an orphan) produces BOTH the audio
connection from the effect tail to the sink and an audio connection from
the remaining orphan directly to the sink — the compiler does not skip
orphan wiring when an effect tail exists. -/
theorem c4_orphan_still_wired_counterexample :
    compiledOk (compileLine regACB "ca") = true ∧
    nodeKind (compileLine regACB "ca") 2 = some .filter ∧
    nodeKind (compileLine regACB "ca") 3 = some .sin ∧
    hasAudioConn (compileLine regACB "ca") 2 1 = true ∧
    hasAudioConn (compileLine regACB "ca") 3 1 = true := by
  decide

/-- C4 amended.  At the end of each word the compiler connects the effect
tail (when one exists) to the sink AND, unconditionally, every remaining
orphan to the sink: the end-of-word wiring has no `else` between the two
steps. -/
theorem c4_end_of_word_amended (st : ParserState) (ws : WordState) (t : Nat)
    (h : ws.effectsTail = some t) :
    (⟨t, .audio 0, st.audioOut, .audio 0⟩ : Conn) ∈ (finalize_word st ws).conns ∧
    ∀ o ∈ ws.orphans, (⟨o, .audio 0, st.audioOut, .audio 0⟩ : Conn) ∈ (finalize_word st ws).conns := by
  have hmono : ∀ (l : List Nat) (s : ParserState) (c : Conn), c ∈ s.conns →
      c ∈ (l.foldl (fun s o => connect s o s.audioOut) s).conns := by
    intro l
    induction l with
    | nil => intro s c hc; exact hc
    | cons o r ih =>
      intro s c hc
      exact ih _ _ (by simp [connect, addConn, hc])
  have hout : ∀ (l : List Nat) (s : ParserState),
      (l.foldl (fun s o => connect s o s.audioOut) s).audioOut = s.audioOut := by
    intro l
    induction l with
    | nil => intro s; rfl
    | cons o r ih => intro s; rw [List.foldl_cons]; exact ih _
  have horph : ∀ (l : List Nat) (s : ParserState), ∀ o ∈ l,
      (⟨o, .audio 0, s.audioOut, .audio 0⟩ : Conn) ∈
        (l.foldl (fun s o => connect s o s.audioOut) s).conns := by
    intro l
    induction l with
    | nil => intro s o ho; cases ho
    | cons x r ih =>
      intro s o ho
      rw [List.foldl_cons]
      rcases List.mem_cons.mp ho with h1 | h2
      · subst h1
        apply hmono
        simp [connect, addConn]
      · have := ih (connect s x s.audioOut) o h2
        simpa [connect, addConn] using this
  constructor
  · apply hmono
    simp [finalize_word, h, connect, addConn]
  · intro o ho
    simp only [finalize_word, h]
    have := horph ws.orphans (connect st t st.audioOut) o ho
    simpa [connect, addConn] using this

/-- C4 witness: the amended end-of-word wiring evaluated at a concrete
word state (effect tail node 2, remaining orphan node 3, fresh parser). -/
theorem c4_end_of_word_amended_witness :
    (⟨2, .audio 0, initParser.audioOut, .audio 0⟩ : Conn) ∈
      (finalize_word initParser ⟨false, [3], some 2, false⟩).conns ∧
    ∀ o ∈ ([3] : List Nat), (⟨o, .audio 0, initParser.audioOut, .audio 0⟩ : Conn) ∈
      (finalize_word initParser ⟨false, [3], some 2, false⟩).conns :=
  c4_end_of_word_amended initParser ⟨false, [3], some 2, false⟩ 2 rfl

/-! ## C5: `"a c b"` -/

/-- C5 counterexample.  Compiling `"a c b"` (three words: oscillator `a` =
node 2, effect `c` = node 3, oscillator `b` = node 4) produces NO audio
connection from `a` into `c` and none from `b` into `c`: per-word state
resets wire each word directly to the sink instead. -/
theorem c5_no_cross_word_chain_counterexample :
    compiledOk (compileLine regACB "a c b") = true ∧
    nodeKind (compileLine regACB "a c b") 3 = some .filter ∧
    hasAudioConn (compileLine regACB "a c b") 2 3 = false ∧
    hasAudioConn (compileLine regACB "a c b") 4 3 = false ∧
    hasAudioConn (compileLine regACB "a c b") 2 1 = true ∧
    hasAudioConn (compileLine regACB "a c b") 3 1 = true ∧
    hasAudioConn (compileLine regACB "a c b") 4 1 = true := by
  decide

/-- C5 amended.  The claimed wiring holds for the one-word string
`"abc"`, where both oscillators precede the effect in the same word:
`a` (node 2) and `b` (node 3) both connect into `c` (node 4) and `c`
connects to the sink, with neither oscillator wired to the sink.  For the
spaced string `"a c b"` every word's nodes connect directly to the sink
and nothing feeds the effect. -/
theorem c5_effect_chain_amended :
    compiledOk (compileLine regACB "abc") = true ∧
    nodeKind (compileLine regACB "abc") 4 = some .filter ∧
    hasAudioConn (compileLine regACB "abc") 2 4 = true ∧
    hasAudioConn (compileLine regACB "abc") 3 4 = true ∧
    hasAudioConn (compileLine regACB "abc") 4 1 = true ∧
    hasAudioConn (compileLine regACB "abc") 2 1 = false ∧
    hasAudioConn (compileLine regACB "abc") 3 1 = false ∧
    hasAudioConn (compileLine regACB "a c b") 2 1 = true ∧
    hasAudioConn (compileLine regACB "a c b") 3 1 = true ∧
    hasAudioConn (compileLine regACB "a c b") 4 1 = true ∧
    hasAudioConn (compileLine regACB "a c b") 2 3 = false ∧
    hasAudioConn (compileLine regACB "a c b") 4 3 = false := by
  decide

/-- Helper: the effect-to-effect chain step of the dispatch is live — in
the one-word string `"acc"` (oscillator, then two effects) the first
effect (node 3) absorbs the oscillator, the second effect (node 4) is
chained onto the first, only the final tail reaches the sink, and the
intermediate nodes are not wired to the sink. -/
theorem effect_chain_step_connects :
    compiledOk (compileLine regACB "acc") = true ∧
    nodeKind (compileLine regACB "acc") 3 = some .filter ∧
    nodeKind (compileLine regACB "acc") 4 = some .filter ∧
    hasAudioConn (compileLine regACB "acc") 2 3 = true ∧
    hasAudioConn (compileLine regACB "acc") 3 4 = true ∧
    hasAudioConn (compileLine regACB "acc") 4 1 = true ∧
    hasAudioConn (compileLine regACB "acc") 3 1 = false ∧
    hasAudioConn (compileLine regACB "acc") 2 1 = false := by
  decide

/-! ## C3: parenthesis balance checking -/

/-- Helper: `connect_midi` never raises an `UnbalancedParentheses` error. -/
theorem connectMidi_ne_unbal (st : ParserState) (a b : Nat) (inc : Bool) :
    connectMidi st a b inc ≠ .error .UnbalancedParentheses := by
  intro h
  simp only [connectMidi] at h
  repeat' (first | (cases h) | (split at h))

/-- Helper: `initialize_letter` only ever raises `UnboundLetter`. -/
theorem initialize_letter_err (reg : Registry) (c : Char) (e : CompileError)
    (h : initialize_letter reg c = .error e) : e = .UnboundLetter := by
  unfold initialize_letter at h
  split at h
  · injection h with h2
    exact h2.symm
  · cases h

/-- Helper: the direct-chain step never raises `UnbalancedParentheses`. -/
theorem letterStepA_ne_unbal (st : ParserState) (ws : WordState) (nid : Nat) :
    letterStepA st ws nid ≠ .error .UnbalancedParentheses := by
  intro h
  simp only [letterStepA] at h
  repeat' (first | (cases h) | (split at h))

/-- Helper: the slot-claim step never raises `UnbalancedParentheses`. -/
theorem letterStepB_ne_unbal (st : ParserState) (ws : WordState) (nid : Nat) :
    letterStepB st ws nid ≠ .error .UnbalancedParentheses := by
  intro h
  simp only [letterStepB] at h
  split at h
  · split at h
    · rename_i pid heq
      split at h
      · rename_i e heq2
        injection h with h2
        rw [h2] at heq2
        exact connectMidi_ne_unbal _ _ _ _ heq2
      · cases h
    · cases h
  · cases h

/-- Helper: no character step of `initialize_word` raises
`UnbalancedParentheses`: the `)` branch decrements the wrapping `size_t`
depth and pops the pulse stack without any balance check. -/
theorem processChar_ne_unbal (reg : Registry) (acc : ParserState × WordState) (c : Char) :
    processChar reg acc c ≠ .error .UnbalancedParentheses := by
  rcases acc with ⟨st, ws⟩
  intro h
  simp only [processChar] at h
  by_cases h1 : c = '('
  · rw [if_pos h1] at h
    cases h
  rw [if_neg h1] at h
  by_cases h2 : c = ')'
  · rw [if_pos h2] at h
    rcases hmp : st.midiPulsers with _ | ⟨p, ps⟩ <;> rw [hmp] at h <;> cases h
  rw [if_neg h2] at h
  cases hl : initialize_letter reg c with
  | error e =>
    rw [hl] at h
    injection h with h3
    have h4 := initialize_letter_err reg c e hl
    rw [h4] at h3
    cases h3
  | ok kp =>
    rw [hl] at h
    rcases kp with ⟨k, ps⟩
    dsimp only at h
    cases ha : letterStepA (addNode st { kind := k, params := ps }).1 ws
        (addNode st { kind := k, params := ps }).2 with
    | error e =>
      rw [ha] at h
      injection h with h3
      rw [h3] at ha
      exact letterStepA_ne_unbal _ _ _ ha
    | ok stA =>
      rw [ha] at h
      dsimp only at h
      cases hb : letterStepB stA ws (addNode st { kind := k, params := ps }).2 with
      | error e =>
        rw [hb] at h
        injection h with h3
        rw [h3] at hb
        exact letterStepB_ne_unbal _ _ _ hb
      | ok p =>
        rw [hb] at h
        cases h

/-- Helper: the character loop never raises `UnbalancedParentheses`. -/
theorem processWordChars_ne_unbal (reg : Registry) :
    ∀ (w : List Char) (acc : ParserState × WordState),
      processWordChars reg acc w ≠ .error .UnbalancedParentheses := by
  intro w
  induction w with
  | nil => intro acc h; simp [processWordChars] at h
  | cons c cs ih =>
    intro acc h
    unfold processWordChars at h
    cases hc : processChar reg acc c with
    | error e =>
      rw [hc] at h
      injection h with h'
      exact processChar_ne_unbal reg acc c (by rw [hc, h'])
    | ok acc' =>
      rw [hc] at h
      exact ih acc' h

/-- Helper: `initialize_word` never raises `UnbalancedParentheses`. -/
theorem initialize_word_ne_unbal (reg : Registry) (st : ParserState) (w : List Char) :
    initialize_word reg st w ≠ .error .UnbalancedParentheses := by
  unfold initialize_word
  intro h
  cases hc : processWordChars reg (st, {}) w with
  | error e =>
    rw [hc] at h
    injection h with h'
    exact processWordChars_ne_unbal reg w (st, {}) (by rw [hc, h'])
  | ok p => rw [hc] at h; cases h

/-- Helper: the word loop never raises `UnbalancedParentheses`. -/
theorem initWords_ne_unbal (reg : Registry) :
    ∀ (ws : List String) (st : ParserState),
      initWords reg st ws ≠ .error .UnbalancedParentheses := by
  intro ws
  induction ws with
  | nil => intro st h; simp [initWords] at h
  | cons w rest ih =>
    intro st h
    unfold initWords at h
    cases hc : initialize_word reg st w.toList with
    | error e =>
      rw [hc] at h
      injection h with h'
      exact initialize_word_ne_unbal reg st w.toList (by rw [hc, h'])
    | ok st' =>
      rw [hc] at h
      exact ih st' h

/-- C3 counterexample.  The code performs no parenthesis balance checking:
the string `"x(a"`, whose final depth is 1 (an unclosed paren), compiles
WITHOUT any error, and the string `")"`, a prefix with more `)` than `(`,
performs an unchecked pop of the empty pulse stack (undefined behaviour
in the C++, modelled as the PopEmptyStack crash) — neither outcome is an
`UnbalancedParentheses` error. -/
theorem c3_no_balance_check_counterexample :
    compiledOk (compileLine regX "x(a") = true ∧
    depthOf (compileLine regX "x(a") = some 1 ∧
    compileLine regX ")" = .error .PopEmptyStack := by
  decide

/-- C3 amended.  Compilation never raises `UnbalancedParentheses` on any
input (no code path constructs it).  A surplus `)` is not checked at
all: it unconditionally pops the pulse stack — undefined behaviour
(modelled as the `PopEmptyStack` crash) when the stack is empty, as for
the input `")"` — and wraps the `size_t` depth.  A string whose final
depth is nonzero compiles without any error, as for `"x(a"`. -/
theorem c3_unbalanced_amended :
    (∀ (reg : Registry) (st : ParserState) (line : String),
       parse_and_initialize_line reg st line ≠ .error .UnbalancedParentheses) ∧
    compileLine regX ")" = .error .PopEmptyStack ∧
    compiledOk (compileLine regX "x(a") = true ∧
    depthOf (compileLine regX "x(a") = some 1 := by
  refine ⟨fun reg st line => ?_, by decide, by decide, by decide⟩
  unfold parse_and_initialize_line
  exact initWords_ne_unbal reg (tokenize line) st

/-! ## C6: the cyclic slot formula -/

/-- C6 counterexample.  A pulse with 300 claimed slots entering its
cycle with `loopCount` stepping to 299 emits an On event whose velocity
byte is `(299 % 300 + 1) % 256 = 44` — the `static_cast<juce::uint8>`
truncation — while the claimed formula `loopCount % max(num,1) + 1`
yields 300; the claim fails for `numClaimedSlots ≥ 256`. -/
theorem c6_slot_truncated_counterexample :
    (boundaryStep c6State).2 = [⟨0, true, 44⟩] ∧
    (boundaryStep c6State).1.loopCount = 299 ∧
    c6State.numConnections = 300 ∧
    299 % (max c6State.numConnections 1).toNat + 1 = 300 ∧
    (44 : Nat) ≠ 300 := by
  constructor
  · rfl
  refine ⟨rfl, rfl, by decide, by decide⟩

/-- C6 amended.  On processing an `AWAITING_NOTE_ON` boundary the engine
increments `loopCount` on every cycle after the first (modulo the 64-bit
counter width) and leaves it unchanged on the first, and the velocity it
computes — carried by the On event when one is emitted — equals
`(loopCount % max(numClaimedSlots,1) + 1) % 256`: the spec's formula
composed with the `uint8` truncation, which coincides with the spec's
formula whenever `numClaimedSlots ≤ 255`. -/
theorem c6_slot_formula_amended (s : PState) (h : s.cycle = .awaitingNoteOn)
    (hn : 0 ≤ s.numConnections) :
    (boundaryStep s).1.isInitialCycle = false ∧
    (s.isInitialCycle = false → (boundaryStep s).1.loopCount = (s.loopCount + 1) % U64) ∧
    (s.isInitialCycle = true → (boundaryStep s).1.loopCount = s.loopCount) ∧
    (boundaryStep s).1.velocity =
      ((boundaryStep s).1.loopCount % (max s.numConnections 1).toNat + 1) % 256 ∧
    ∀ e ∈ (boundaryStep s).2, e.isOn = true ∧ e.vel = (boundaryStep s).1.velocity := by
  have hvel : ∀ lc : Nat, computeVelocity s.numConnections lc =
      (lc % (max s.numConnections 1).toNat + 1) % 256 := by
    intro lc
    unfold computeVelocity
    by_cases hp : s.numConnections > 0
    · rw [if_pos hp]
      have : max s.numConnections 1 = s.numConnections := by omega
      rw [this]
    · rw [if_neg hp]
      have h0 : s.numConnections = 0 := by omega
      have : (max s.numConnections 1).toNat = 1 := by rw [h0]; rfl
      rw [this]
      omega
  simp only [boundaryStep, h]
  split
  · refine ⟨rfl, fun hi => by simp [hi], fun hi => by simp [hi], hvel _, ?_⟩
    intro e he
    simp only [List.mem_singleton] at he
    subst he
    exact ⟨rfl, rfl⟩
  · refine ⟨rfl, fun hi => by simp [hi], fun hi => by simp [hi], hvel _, ?_⟩
    intro e he
    cases he

/-- C6 witness: the amended formula instantiated at the freshly prepared
claim-C7 pulse (cycle `AWAITING_NOTE_ON`, no claimed slots). -/
theorem c6_slot_formula_amended_witness :
    (boundaryStep pulse47).1.isInitialCycle = false ∧
    (pulse47.isInitialCycle = false → (boundaryStep pulse47).1.loopCount = (pulse47.loopCount + 1) % U64) ∧
    (pulse47.isInitialCycle = true → (boundaryStep pulse47).1.loopCount = pulse47.loopCount) ∧
    (boundaryStep pulse47).1.velocity =
      ((boundaryStep pulse47).1.loopCount % (max pulse47.numConnections 1).toNat + 1) % 256 ∧
    ∀ e ∈ (boundaryStep pulse47).2, e.isOn = true ∧ e.vel = (boundaryStep pulse47).1.velocity :=
  c6_slot_formula_amended pulse47 (by decide) (by decide)

/-! ## C7 and C10: pulse-engine timing and alternation -/

/-- Helper: `runSamples` over a concatenation splits into sequential runs. -/
theorem runSamples_append (s : PState) (l1 l2 : List (Option Bool)) :
    runSamples s (l1 ++ l2) =
      ((runSamples (runSamples s l1).1 l2).1,
       (runSamples s l1).2 ++ (runSamples (runSamples s l1).1 l2).2) := by
  induction l1 generalizing s with
  | nil => simp [runSamples]
  | cons g gs ih =>
    simp only [List.cons_append, runSamples]
    rw [show (gs.append l2) = gs ++ l2 from rfl, ih]
    simp [List.append_assoc]

/-- Helper: a sequence of processed blocks is observationally the flat
sequence of its samples. -/
theorem runBlocks_eq_runSamples (blocks : List (List (Option Bool))) (s : PState) :
    runBlocks s blocks = runSamples s blocks.flatten := by
  induction blocks generalizing s with
  | nil => simp [runBlocks, runSamples]
  | cons b bs ih =>
    simp only [runBlocks, List.flatten_cons]
    rw [runSamples_append, ih]

/-- Helper: the C7 pulse (bpm=120, on=1, off=1 at 48 kHz) starts in the
closed-form state: `samplesPerBeat` evaluates to exactly 24000. -/
theorem pulse47_eq_stateAt0 : pulse47 = stateAt 0 := by
  have harg : ((24000 : ℚ)).floor = 24000 := by
    rw [Rat.floor_def']
    norm_num
  unfold pulse47 prepareToPlay mkPulse stateAt
  simp only [PState.mk.injEq]
  norm_num [harg, U64]

/-- Helper: one sample of the C7 pulse advances the closed-form state and
emits exactly the events of `emitAt`. -/
theorem sampleStep_stateAt (n : Nat) (g : Option Bool) :
    sampleStep (stateAt n) g = (stateAt (n + 1), emitAt n) := by
  rcases n with _ | m
  · simp only [sampleStep, gateUpdate, forcedOff, boundaryLoop, stateAt, boundaryStep,
               emitAt, computeVelocity]
    norm_num
  · simp only [sampleStep, gateUpdate, forcedOff, boundaryLoop, stateAt, boundaryStep,
               emitAt, computeVelocity, U64]
    norm_num
    by_cases hc1 : ((m : ℤ) + 1) = 24000 * ((m : ℤ) / 24000 + 1)
    · simp only [if_pos hc1]
      by_cases hp : m / 24000 % 2 = 0
      · simp only [if_pos hp, if_neg (show ¬(m / 24000 % 2 = 1) by omega),
                   if_neg (show ¬((m:ℤ) + 1 = 24000 * ((m:ℤ) / 24000 + 1) + 24000) by omega)]
        norm_num
        have hmod : (m + 1) % 24000 = 0 := by omega
        have hq1 : (m + 1) / 24000 % 2 = 1 := by omega
        refine ⟨⟨by omega, by rw [if_neg (by omega)], hq1, by omega⟩, ?_⟩
        simp [hmod, hq1]
      · simp only [if_neg hp, if_pos (show m / 24000 % 2 = 1 by omega),
                   if_neg (show ¬((m:ℤ) + 1 = 24000 * ((m:ℤ) / 24000 + 1) + 24000) by omega)]
        norm_num
        have hmod : (m + 1) % 24000 = 0 := by omega
        have hq0 : (m + 1) / 24000 % 2 = 0 := by omega
        refine ⟨⟨by omega, by rw [if_pos (by omega)], by simp [hq0], by omega⟩, ?_⟩
        simp [hmod, hq0]
    · simp only [if_neg hc1]
      norm_num
      have hq : (m + 1) / 24000 = m / 24000 := by omega
      have hq2 : (m + 1) / 48000 = m / 48000 := by omega
      rw [hq, hq2]
      refine ⟨⟨by omega, rfl, Iff.rfl, rfl⟩, by omega⟩

/-- Helper: the closed-form run of the C7 pulse from any sample index. -/
theorem runSamples_stateAt (gs : List (Option Bool)) (n : Nat) :
    runSamples (stateAt n) gs = (stateAt (n + gs.length), traceFrom n gs.length) := by
  induction gs generalizing n with
  | nil => simp [runSamples, traceFrom]
  | cons g gs ih =>
    simp only [runSamples, sampleStep_stateAt, ih, Prod.mk.injEq, List.length_cons]
    constructor
    · exact congrArg stateAt (by omega)
    · simp [traceFrom, List.range'_succ]

/-- Helper: a boundary step does not change `beatsOn`. -/
theorem boundaryStep_beatsOn (s : PState) : (boundaryStep s).1.beatsOn = s.beatsOn := by
  unfold boundaryStep
  split <;> (try dsimp only) <;> (repeat' split) <;> rfl

/-- Helper: with `beatsOn = 0` a boundary step never emits an On event
(the `beatsOn > 0` guard). -/
theorem boundaryStep_no_on (s : PState) (h : s.beatsOn ≤ 0) :
    ∀ e ∈ (boundaryStep s).2, e.isOn = false := by
  intro e he
  unfold boundaryStep at he
  cases hc : s.cycle <;> rw [hc] at he <;> dsimp only at he
  · rw [if_neg (fun hcon => absurd hcon.1 (by omega))] at he
    cases he
  · split at he
    · simp only [List.mem_singleton] at he
      rw [he]
    · cases he

/-- Helper: the forced-off check only ever emits Off events. -/
theorem forcedOff_no_on (s : PState) :
    (forcedOff s).1.beatsOn = s.beatsOn ∧ ∀ e ∈ (forcedOff s).2, e.isOn = false := by
  unfold forcedOff
  split
  · exact ⟨rfl, by intro e he; simp only [List.mem_singleton] at he; rw [he]⟩
  · exact ⟨rfl, by intro e he; cases he⟩

/-- Helper: with `beatsOn = 0` the boundary loop never emits an On event. -/
theorem boundaryLoop_no_on (s : PState) (h : s.beatsOn ≤ 0) :
    (boundaryLoop s).1.beatsOn = s.beatsOn ∧ ∀ e ∈ (boundaryLoop s).2, e.isOn = false := by
  unfold boundaryLoop
  dsimp only
  constructor
  · split <;> (try split) <;> simp [boundaryStep_beatsOn]
  · intro e he
    split at he
    · split at he
      · simp only [List.mem_append] at he
        rcases he with he | he
        · exact boundaryStep_no_on s h e he
        · exact boundaryStep_no_on _ (by rw [boundaryStep_beatsOn]; exact h) e he
      · simp only [List.append_nil] at he
        exact boundaryStep_no_on s h e he
    · simp at he

/-- Helper: with `beatsOn = 0` one sample never emits an On event. -/
theorem sampleStep_no_on (s : PState) (g : Option Bool) (h : s.beatsOn ≤ 0) :
    (sampleStep s g).1.beatsOn = s.beatsOn ∧ ∀ e ∈ (sampleStep s g).2, e.isOn = false := by
  unfold sampleStep
  split
  · exact ⟨rfl, by intro e he; cases he⟩
  · dsimp only
    have hg : (gateUpdate s g).beatsOn = s.beatsOn := rfl
    have hf := forcedOff_no_on (gateUpdate s g)
    have hb := boundaryLoop_no_on (forcedOff (gateUpdate s g)).1 (by rw [hf.1, hg]; exact h)
    constructor
    · rw [hb.1, hf.1, hg]
    · intro e he
      simp only [List.mem_append] at he
      rcases he with he | he
      · exact hf.2 e he
      · exact hb.2 e he

/-- Helper: with `beatsOn = 0` no run of samples emits an On event. -/
theorem runSamples_no_on (gs : List (Option Bool)) (s : PState) (h : s.beatsOn ≤ 0) :
    (runSamples s gs).1.beatsOn = s.beatsOn ∧ ∀ e ∈ (runSamples s gs).2, e.isOn = false := by
  induction gs generalizing s with
  | nil => exact ⟨rfl, by intro e he; cases he⟩
  | cons g gs ih =>
    simp only [runSamples]
    have h1 := sampleStep_no_on s g h
    have h2 := ih (sampleStep s g).1 (by rw [h1.1]; exact h)
    constructor
    · rw [h2.1, h1.1]
    · intro e he
      simp only [List.mem_append] at he
      rcases he with he | he
      · exact h1.2 e he
      · exact h2.2 e he

/-- Helper: `inc_connections` never changes `beatsOn`. -/
theorem pIncN_beatsOn : ∀ (k : Nat) (s : PState), (pIncN s k).beatsOn = s.beatsOn := by
  intro k
  induction k with
  | zero => intro s; rfl
  | succ k ih => intro s; rw [pIncN, ih]; rfl

/-- C7 (confirmed).  First conjunct: a pulse constructed with `on = 0` —
whatever its bpm, off-beats, gating configuration, listening velocity and
number of claimed slots — never emits an On event over any sequence of
processed blocks.  Second conjunct: the pulse configured with bpm=120,
on=1, off=1 and prepared at 48000 Hz generates, over any sequence of
processed blocks, exactly one event at every multiple of 24000 samples,
alternating On (even multiples) and Off (odd multiples): its state-change
boundaries fall exactly every 24000 samples (`samplesPerBeat =
48000*60/120 = 24000`, exact in double arithmetic). -/
theorem c7_pulse_timing :
    (∀ (bpm sr : ℚ) (offIn lv : Int) (gat lis : Bool) (k : Nat)
       (blocks : List (List (Option Bool))),
       ((runBlocks (prepareToPlay
           (pSetGating (pSetIsListening (pSetListeningVel (pIncN (mkPulse bpm 0 offIn) k) lv) lis) gat) sr)
           blocks).2.all (fun e => !e.isOn)) = true) ∧
    (∀ blocks : List (List (Option Bool)),
       (runBlocks pulse47 blocks).2 = traceFrom 0 blocks.flatten.length) := by
  constructor
  · intro bpm sr offIn lv gat lis k blocks
    rw [runBlocks_eq_runSamples]
    have hb : (prepareToPlay
        (pSetGating (pSetIsListening (pSetListeningVel (pIncN (mkPulse bpm 0 offIn) k) lv) lis) gat)
        sr).beatsOn = 0 := by
      simp [prepareToPlay, pSetGating, pSetIsListening, pSetListeningVel, pIncN_beatsOn, mkPulse]
    have hno := runSamples_no_on blocks.flatten _ (by rw [hb])
    rw [List.all_eq_true]
    intro e he
    simp [hno.2 e he]
  · intro blocks
    rw [runBlocks_eq_runSamples, pulse47_eq_stateAt0, runSamples_stateAt]

/-- Helper: `endBool` over a concatenation. -/
theorem endBool_append (b : Bool) (l1 l2 : List Ev) :
    endBool b (l1 ++ l2) = endBool (endBool b l1) l2 := by
  induction l1 generalizing b with
  | nil => rfl
  | cons e r ih =>
    simp only [List.cons_append, endBool]
    rw [show (r.append l2) = r ++ l2 from rfl, ih]

/-- Helper: the alternation checker over a concatenation. -/
theorem okSeqB_append (b : Bool) (l1 l2 : List Ev) :
    okSeqB b (l1 ++ l2) = (okSeqB b l1 && okSeqB (endBool b l1) l2) := by
  induction l1 generalizing b with
  | nil => simp [okSeqB, endBool]
  | cons e r ih =>
    simp only [List.cons_append, okSeqB, endBool]
    rw [show (r.append l2) = r ++ l2 from rfl, ih, Bool.and_assoc]

/-- Helper: every boundary step emits guarded-and-toggling events. -/
theorem boundaryStep_ok (s : PState) :
    okSeqB s.noteOn (boundaryStep s).2 = true ∧
    (boundaryStep s).1.noteOn = endBool s.noteOn (boundaryStep s).2 := by
  unfold boundaryStep
  cases s.cycle <;> dsimp only
  · split
    · rename_i hg
      rw [hg.2.2]
      simp [okSeqB, endBool]
    · simp [okSeqB, endBool]
  · split
    · rename_i hg
      rw [hg]
      simp [okSeqB, endBool]
    · simp [okSeqB, endBool]

/-- Helper: the forced-off check emits guarded-and-toggling events. -/
theorem forcedOff_ok (s : PState) :
    okSeqB s.noteOn (forcedOff s).2 = true ∧
    (forcedOff s).1.noteOn = endBool s.noteOn (forcedOff s).2 := by
  unfold forcedOff
  split
  · rename_i hg
    rw [hg.2.1]
    simp [okSeqB, endBool]
  · simp [okSeqB, endBool]

/-- Helper: the boundary loop emits guarded-and-toggling events. -/
theorem boundaryLoop_ok (s : PState) :
    okSeqB s.noteOn (boundaryLoop s).2 = true ∧
    (boundaryLoop s).1.noteOn = endBool s.noteOn (boundaryLoop s).2 := by
  unfold boundaryLoop
  dsimp only
  split
  · split
    · have h1 := boundaryStep_ok s
      have h2 := boundaryStep_ok (boundaryStep s).1
      rw [okSeqB_append, endBool_append, ← h1.2]
      simp [h1.1, h2.1, h2.2]
    · have h1 := boundaryStep_ok s
      simp [okSeqB_append, endBool_append, okSeqB, endBool, h1.1, h1.2]
  · simp [okSeqB, endBool]

/-- Helper: one sample emits guarded-and-toggling events. -/
theorem sampleStep_ok (s : PState) (g : Option Bool) :
    okSeqB s.noteOn (sampleStep s g).2 = true ∧
    (sampleStep s g).1.noteOn = endBool s.noteOn (sampleStep s g).2 := by
  unfold sampleStep
  split
  · simp [okSeqB, endBool]
  · dsimp only
    have hgu : (gateUpdate s g).noteOn = s.noteOn := rfl
    have hf := forcedOff_ok (gateUpdate s g)
    have hb := boundaryLoop_ok (forcedOff (gateUpdate s g)).1
    rw [okSeqB_append, endBool_append]
    rw [hgu] at hf
    rw [hf.2] at hb
    simp [hf.1, hb.1, hb.2]

/-- Helper: any run of samples emits guarded-and-toggling events. -/
theorem runSamples_ok (gs : List (Option Bool)) (s : PState) :
    okSeqB s.noteOn (runSamples s gs).2 = true ∧
    (runSamples s gs).1.noteOn = endBool s.noteOn (runSamples s gs).2 := by
  induction gs generalizing s with
  | nil => simp [runSamples, okSeqB, endBool]
  | cons g gs ih =>
    simp only [runSamples]
    have h1 := sampleStep_ok s g
    have h2 := ih (sampleStep s g).1
    rw [okSeqB_append, endBool_append, ← h1.2]
    simp [h1.1, h2.1, h2.2]

/-- C10 (confirmed).  For every pulse configuration and every sequence of
processed blocks after preparation (with arbitrary incoming gate traffic,
covering forced Offs from a parent gate closing), the events the pulse
generates itself strictly alternate: each On is emitted only while its
generated note is off and each Off only while it is on, starting from the
note-off state that `prepareToPlay` establishes. -/
theorem c10_alternation (s : PState) (sr : ℚ) (blocks : List (List (Option Bool))) :
    okSeqB false (runBlocks (prepareToPlay s sr) blocks).2 = true := by
  rw [runBlocks_eq_runSamples]
  have h := runSamples_ok blocks.flatten (prepareToPlay s sr)
  have hn : (prepareToPlay s sr).noteOn = false := rfl
  rw [hn] at h
  exact h.1

/-- Helper: the shape of one boundary step — the sample position is
unchanged, the durations are unchanged, the cycle flips, and `next`
advances by the duration of the phase being entered. -/
theorem boundaryStep_shape (s : PState) :
    (boundaryStep s).1.count = s.count ∧
    (boundaryStep s).1.onDur = s.onDur ∧
    (boundaryStep s).1.offDur = s.offDur ∧
    ((s.cycle = .awaitingNoteOn ∧ (boundaryStep s).1.next = s.next + s.onDur ∧
        (boundaryStep s).1.cycle = .noteIsOn) ∨
     (s.cycle = .noteIsOn ∧ (boundaryStep s).1.next = s.next + s.offDur ∧
        (boundaryStep s).1.cycle = .awaitingNoteOn)) := by
  unfold boundaryStep
  cases hc : s.cycle <;> dsimp only <;> (try split) <;>
    simp [hc]

/-- Helper: the two-fold unrolling of the state-change `while` loop is
exact — whenever the two durations are not both zero (the only way the
loop is reached), the loop condition is false after `boundaryLoop`, so a
C++ `while` would exit exactly where the model does. -/
theorem boundaryLoop_exits (s : PState) (h : ¬(s.onDur = 0 ∧ s.offDur = 0)) :
    (boundaryLoop s).1.count ≠ (boundaryLoop s).1.next := by
  unfold boundaryLoop
  dsimp only
  split
  · rename_i h1
    have hs1 := boundaryStep_shape s
    split
    · rename_i h2
      have hs2 := boundaryStep_shape (boundaryStep s).1
      rcases hs1.2.2.2 with ⟨hcy, hnx, hcy2⟩ | ⟨hcy, hnx, hcy2⟩ <;>
        rcases hs2.2.2.2 with ⟨hcy3, hnx2, _⟩ | ⟨hcy3, hnx2, _⟩ <;>
        rw [hcy2] at hcy3 <;> try cases hcy3
      · rw [hs2.1, hs1.1, hnx2, hnx, hs1.2.2.1]
        omega
      · rw [hs2.1, hs1.1, hnx2, hnx, hs1.2.1]
        omega
    · rename_i h2
      rw [hs1.1] at h2 ⊢
      exact h2
  · rename_i h1
    exact h1

/-! ## C8: malformed lines terminate the session (code bug) -/

/-- C8 (code_bug evaluation).  Running the session on the lines
`["SET a bogus 1", "SET b saw"]` with `a` and `b` bound: the first line
throws `UnknownParameter` inside `execute_bind_command`; no caller
catches it, so the loop stops, the second line is never processed and
`b` keeps its old binding — one malformed line terminates the session,
contradicting the recoverable-error policy the spec states as the
intent. -/
theorem c8_session_terminates_on_bad_set :
    (runSession (mkSession regAB) ["SET a bogus 1", "SET b saw"]).2.1 =
      some (.cmd .UnknownParameter) ∧
    (runSession (mkSession regAB) ["SET a bogus 1", "SET b saw"]).2.2 = ["SET b saw"] ∧
    lookupBinding (runSession (mkSession regAB) ["SET a bogus 1", "SET b saw"]).1.reg 'b' =
      some sinBinding := by
  decide

/-! ## C9: rebinding is not atomic -/

/-- C9 counterexample.  With `a` previously bound to `sin` (note 10), the
command `set a midi bogus 5` fails with `UnknownParameter` — yet the
previous binding is NOT left unchanged: `a` is already rebound to `midi`
with schema defaults when the override fails, observable by a subsequent
instantiate of `a` producing a `midi` node. -/
theorem c9_not_atomic_counterexample :
    (executeBind regSin10 "set a midi bogus 5").2 = some .UnknownParameter ∧
    lookupBinding regSin10 'a' = some ⟨.sin, "sin", [.vInt 10]⟩ ∧
    lookupBinding (executeBind regSin10 "set a midi bogus 5").1 'a' =
      some ⟨.midi, "midi", [.vFloat 120, .vInt 1, .vInt 1]⟩ ∧
    initialize_letter (executeBind regSin10 "set a midi bogus 5").1 'a' =
      .ok (.midi, [.vFloat 120, .vInt 1, .vInt 1]) := by
  decide

/-- Helper: inserting a binding makes it the one found. -/
theorem lookup_bindLetter (reg : Registry) (c : Char) (b : Binding) :
    lookupBinding (bindLetter reg c b) c = some b := by
  induction reg with
  | nil => simp [bindLetter, lookupBinding]
  | cons p r ih =>
    rcases p with ⟨c0, b0⟩
    unfold bindLetter
    by_cases h : c0 = c
    · rw [if_pos h]
      simp [lookupBinding]
    · rw [if_neg h]
      unfold lookupBinding
      rw [if_neg h]
      exact ih

/-- Helper: `Binding::set_param` never changes the kind or type name. -/
theorem bindingSetParam_kind (b b' : Binding) (k : String) (v : Value)
    (h : bindingSetParam b k v = .ok b') :
    b'.kind = b.kind ∧ b'.typeName = b.typeName := by
  unfold bindingSetParam at h
  cases hf : findParamIdx (schema b.kind) k with
  | none => rw [hf] at h; cases h
  | some i =>
    rw [hf] at h
    dsimp only at h
    cases hg : (schema b.kind).get? i with
    | none => rw [hg] at h; cases h
    | some t =>
      rw [hg] at h
      rcases t with ⟨nm, kk, dv⟩
      dsimp only at h
      cases hv : valueCast kk v with
      | error e => rw [hv] at h; cases h
      | ok v2 =>
        rw [hv] at h
        injection h with h2
        rw [← h2]
        exact ⟨rfl, rfl⟩

/-- C9 amended.  `execute_bind_command` first replaces the letter's
binding with the new type and schema defaults, then applies the overrides
one `set_param` at a time; a failing override (here `UnknownParameter`)
leaves the letter bound to the NEW type (with the overrides applied
before the failure), never restoring the previous binding — and in
general the override-application loop can only change parameter values,
never the kind or type name the letter was (re)bound to. -/
theorem c9_rebind_replaces_first_amended :
    ((executeBind regSin10 "set a midi bogus 5").2 = some .UnknownParameter ∧
     lookupBinding (executeBind regSin10 "set a midi bogus 5").1 'a' =
       some ⟨.midi, "midi", schemaDefaults .midi⟩) ∧
    (∀ (reg : Registry) (c : Char) (kv : List (String × Value)) (b : Binding),
       lookupBinding reg c = some b →
       ∃ b', lookupBinding (applyParams reg c kv).1 c = some b' ∧
             b'.kind = b.kind ∧ b'.typeName = b.typeName) := by
  constructor
  · exact ⟨by decide, by decide⟩
  · intro reg c kv
    induction kv generalizing reg with
    | nil =>
      intro b hb
      exact ⟨b, hb, rfl, rfl⟩
    | cons p r ih =>
      intro b hb
      rcases p with ⟨k, v⟩
      unfold applyParams
      cases hsp : regSetParam reg c k v with
      | error e => exact ⟨b, hb, rfl, rfl⟩
      | ok reg2 =>
        unfold regSetParam at hsp
        rw [hb] at hsp
        dsimp only at hsp
        cases hbp : bindingSetParam b k v with
        | error e => rw [hbp] at hsp; cases hsp
        | ok b2 =>
          rw [hbp] at hsp
          injection hsp with hsp2
          have hk := bindingSetParam_kind b b2 k v hbp
          have hl : lookupBinding reg2 c = some b2 := by
            rw [← hsp2]
            exact lookup_bindLetter reg c b2
          obtain ⟨b3, hb3, hk3, ht3⟩ := ih reg2 b2 hl
          exact ⟨b3, hb3, hk3.trans hk.1, ht3.trans hk.2⟩

/-- C9 witness: the non-restoring override loop evaluated at the
counterexample registry: applying the failing override list to `a`
(bound to `sin`) keeps `a` bound to `sin`. -/
theorem c9_rebind_replaces_first_amended_witness :
    ∃ b', lookupBinding (applyParams regSin10 'a' [("bogus", .vInt 5)]).1 'a' = some b' ∧
          b'.kind = ProcKind.sin ∧ b'.typeName = "sin" :=
  c9_rebind_replaces_first_amended.2 regSin10 'a' [("bogus", .vInt 5)]
    ⟨.sin, "sin", [.vInt 10]⟩ (by decide)


